import Mathlib

/-
Verification of the VaultPad client-side session and editing-orchestration
layer.  The definitions below are a shallow embedding of the TypeScript
source: the zustand store (src/store/index.ts), the bootstrap resolver
(App.tsx), the unlock / PIN components, the autosave coordinator
(ContentView.tsx) and the project-list operations (MainLayout.tsx).
-/

namespace VaultPad

/-- AppView from src/lib/types.ts:
"loading" | "init" | "master-password-setup" | "pin-setup" | "pin-unlock" |
"unlock" | "main". -/
inductive AppView where
  | loading
  | init
  | masterPasswordSetup
  | pinSetup
  | pinUnlock
  | unlock
  | main
deriving DecidableEq, Repr

/-- ProjectListItem from src/lib/types.ts. -/
structure ProjectListItem where
  id : String
  name : String
  has_custom_password : Bool
  password_saved : Bool
  sort_order : Nat
  created_at : String
  updated_at : String
deriving DecidableEq, Repr

/-- DecryptedProject from src/lib/types.ts. -/
structure DecryptedProject where
  id : String
  name : String
  content : String
  has_custom_password : Bool
  sort_order : Nat
  created_at : String
  updated_at : String
deriving DecidableEq, Repr

/-- The zustand store state (src/store/index.ts), restricted to the fields
the session and list logic reads or writes. -/
structure AppStore where
  view : AppView
  masterPassword : Option String
  projects : List ProjectListItem
  selectedProjectId : Option String
  openProject : Option DecryptedProject
  lastActivity : Nat
  hasSavedSession : Bool
  hasPinCode : Bool
  dbPath : Option String
deriving DecidableEq, Repr

/-- Initial store values from the `create` call in src/store/index.ts
(`Date.now()` at creation is taken as instant 0). -/
def initialStore : AppStore where
  view := AppView.loading
  masterPassword := none
  projects := []
  selectedProjectId := none
  openProject := none
  lastActivity := 0
  hasSavedSession := false
  hasPinCode := false
  dbPath := none

/-- The `lock` action of the store (src/store/index.ts lines 96-103). -/
def AppStore.lock (s : AppStore) : AppStore :=
  { s with
      masterPassword := none
      openProject := none
      projects := []
      selectedProjectId := none
      view := if s.hasPinCode then AppView.pinUnlock else AppView.unlock }

/-- JavaScript truthiness of a nullable string (`if (!x)` guards in the
source): null and the empty string are falsy. -/
def optTruthy : Option String → Bool
  | none => false
  | some s => !s.isEmpty

/-- Calls issued to the external Tauri command interface (useTauri.ts). -/
inductive Effect where
  | cacheMasterKey (mp : String)
  | clearCachedKey
  | setupPin (pin mp : String)
  | createProject (name content password : String) (hasCustom : Bool)
  | updateProject (id name content password : String) (hasCustom : Bool)
  | getProject (id password : String)
  | listProjects
  | reorderProjects (ids : List String)
deriving DecidableEq, Repr

/-- Answers of the external collaborators queried by the bootstrap resolver
in App.tsx: `hasSavedSession()`, `getSavedDbPath()`, whether `initDatabase`
succeeds, `hasPin()`, `getSavedMasterPassword()`, and the clock value used
by `touchActivity`. -/
structure TauriEnv where
  hasSavedSession : Bool
  savedDbPath : Option String
  initDatabaseOk : Bool
  hasPin : Bool
  savedMasterPassword : Option String
  now : Nat
deriving DecidableEq, Repr

/-- The one-shot bootstrap resolver from App.tsx (the `bootstrap` async
function): returns the updated store and the list of issued effects.  An
`initDatabase` failure is caught and lands in the init view, after
`setHasSavedSession(true)` has already run. -/
def bootstrap (env : TauriEnv) (s : AppStore) : AppStore × List Effect :=
  if env.hasSavedSession = false then
    ({ s with view := AppView.init }, [])
  else
    let s1 := { s with hasSavedSession := true }
    match env.savedDbPath with
    | none => ({ s1 with view := AppView.init }, [])
    | some dbPath =>
      if env.initDatabaseOk = false then
        ({ s1 with view := AppView.init }, [])
      else
        let s2 := { s1 with dbPath := some dbPath, hasPinCode := env.hasPin }
        if env.hasPin = true then
          ({ s2 with view := AppView.pinUnlock }, [])
        else
          match env.savedMasterPassword with
          | some mp =>
              ({ s2 with
                   masterPassword := some mp
                   lastActivity := env.now
                   view := AppView.main },
               [Effect.cacheMasterKey mp])
          | none => ({ s2 with view := AppView.unlock }, [])

/-- The lock action as invoked at its call sites (MainLayout menu handler
and SettingsPanel lockNow button): `tauri.clearCachedKey(); lock();`. -/
def lockAndClearKey (s : AppStore) : AppStore × List Effect :=
  (s.lock, [Effect.clearCachedKey])

/-- C2: the bootstrap resolver lands in the init view when no session was
persisted or no storage location is stored; otherwise, with storage
initialization succeeding, it lands in pin-unlock when a PIN is
configured; otherwise, when a saved master password is retrievable, it
caches the derived key, records the password in memory, marks activity and
lands in the main (unlocked) view; and when the password is absent it
lands in the unlock view. -/
theorem C2_bootstrap_cases (env : TauriEnv) (s : AppStore)
    (hinit : env.initDatabaseOk = true) :
    (env.hasSavedSession = false → (bootstrap env s).1.view = AppView.init)
    ∧ (env.savedDbPath = none → (bootstrap env s).1.view = AppView.init)
    ∧ (env.hasSavedSession = true → ∀ p : String, env.savedDbPath = some p →
        (env.hasPin = true → (bootstrap env s).1.view = AppView.pinUnlock)
        ∧ (env.hasPin = false →
            (∀ mp : String, env.savedMasterPassword = some mp →
              (bootstrap env s).1.view = AppView.main
              ∧ (bootstrap env s).1.masterPassword = some mp
              ∧ (bootstrap env s).1.lastActivity = env.now
              ∧ (bootstrap env s).2 = [Effect.cacheMasterKey mp])
            ∧ (env.savedMasterPassword = none →
                (bootstrap env s).1.view = AppView.unlock))) := by
  obtain ⟨hss, hdb, hio, hpin, hmp, hnow⟩ := env
  simp only at hinit
  subst hinit
  refine ⟨?_, ?_, ?_⟩
  · intro h
    simp only at h
    subst h
    simp [bootstrap]
  · intro h
    simp only at h
    subst h
    cases hss <;> simp [bootstrap]
  · intro h p hp
    simp only at h hp
    subst h
    subst hp
    refine ⟨?_, ?_⟩
    · intro h
      simp only at h
      subst h
      simp [bootstrap]
    · intro h
      simp only at h
      subst h
      refine ⟨?_, ?_⟩
      · intro mp hmp'
        simp only at hmp'
        subst hmp'
        simp [bootstrap]
      · intro hmp'
        simp only at hmp'
        subst hmp'
        simp [bootstrap]

/-- C2 witness: a concrete returning-user environment without a PIN and
with a saved master password bootstraps to the unlocked main view. -/
theorem C2_bootstrap_cases_witness :
    (bootstrap ⟨true, some "loc", true, false, some "pw", 42⟩ initialStore).1.view
        = AppView.main
    ∧ (bootstrap ⟨true, some "loc", true, false, some "pw", 42⟩ initialStore).1.masterPassword
        = some "pw"
    ∧ (bootstrap ⟨true, some "loc", true, false, some "pw", 42⟩ initialStore).1.lastActivity
        = 42
    ∧ (bootstrap ⟨true, some "loc", true, false, some "pw", 42⟩ initialStore).2
        = [Effect.cacheMasterKey "pw"] :=
  (((C2_bootstrap_cases ⟨true, some "loc", true, false, some "pw", 42⟩
      initialStore rfl).2.2 rfl "loc" rfl).2 rfl).1 "pw" rfl

/-- Save status of the autosave coordinator (ContentView.tsx:
"idle" | "saving" | "saved" | "error"). -/
inductive SaveStatus where
  | idle
  | saving
  | saved
  | error
deriving DecidableEq, Repr

/-- ContentView.tsx debounce interval (DEBOUNCE_MS). -/
def DEBOUNCE_MS : Nat := 1500

/-- The editing state of ContentView.tsx while a project is open:
the buffered content, the dirty flag, the pending debounce-timer fire
instant (none when no timer is pending), the save status, the surfaced
error, and the open project's stored content (`openProject.content`). -/
structure AutosaveState where
  content : String
  savedContent : String
  dirty : Bool
  deadline : Option Nat
  saveStatus : SaveStatus
  errorMsg : Option String
deriving DecidableEq, Repr

/-- handleContentChange plus the debounce effect of ContentView.tsx.  The
effect's dependency array is [dirty, handleSave], and handleSave is a
stable useCallback, so the effect re-runs — clearing the old timer and
scheduling a new one at `now + DEBOUNCE_MS` — only when the dirty flag
flips from false to true.  A mutation while the buffer is already dirty
stores the new value but leaves the pending timer untouched. -/
def mutateContent (a : AutosaveState) (v : String) (now : Nat) : AutosaveState :=
  if a.dirty = true then
    { a with content := v }
  else
    { a with content := v, dirty := true, deadline := some (now + DEBOUNCE_MS) }

/-- handleSave of ContentView.tsx, with the outcome of the
`updateProject` call supplied by the environment.  Returns the new state
and the list of contents passed to commit calls.  A commit call is issued
exactly when the buffer is dirty; on success the dirty flag clears and the
open project's content is updated; on failure the dirty flag and content
are untouched, the status becomes error and the error is surfaced. -/
def handleSave (a : AutosaveState) (res : Except String Unit) :
    AutosaveState × List String :=
  if a.dirty = false then (a, [])
  else
    match res with
    | Except.ok _ =>
        ({ a with
             errorMsg := none
             dirty := false
             savedContent := a.content
             saveStatus := SaveStatus.saved }, [a.content])
    | Except.error e =>
        ({ a with errorMsg := some e, saveStatus := SaveStatus.error }, [a.content])

/-- The debounce timer firing: the pending timer is consumed and
handleSave runs. -/
def fireDebounce (a : AutosaveState) (res : Except String Unit) :
    AutosaveState × List String :=
  handleSave { a with deadline := none } res

/-- The Cmd/Ctrl+S manual-flush keydown handler of ContentView.tsx: when
dirty, cancel the pending debounce timer and run handleSave at once. -/
def manualFlush (a : AutosaveState) (res : Except String Unit) :
    AutosaveState × List String :=
  if a.dirty = true then handleSave { a with deadline := none } res
  else (a, [])

/-- A full UI state: the store plus the ContentView editing state, which
exists only while the main layout is mounted (view = main). -/
structure UiState where
  store : AppStore
  buffer : Option AutosaveState
deriving DecidableEq, Repr

/-- React mounting semantics for the ContentView-local editing state: it
survives only while the main view is rendered. -/
def mountedBuffer (v : AppView) (b : Option AutosaveState) : Option AutosaveState :=
  if v = AppView.main then b else none

/-- The composite lock action on the full UI state: `clearCachedKey` is
requested, the store's lock action runs, and the editor state is destroyed
because the main layout unmounts. -/
def lockNowUi (u : UiState) : UiState × List Effect :=
  let s := u.store.lock
  ({ store := s, buffer := mountedBuffer s.view u.buffer },
   [Effect.clearCachedKey])

/-- C3: the lock operation, from any state, clears the in-memory master
password, the open item and its edit buffer, the selected-item id and the
item list, requests the purge of the cached derived key, and moves the
view to pin-unlock when a PIN is configured and to unlock otherwise. -/
theorem C3_lock_clears_all (u : UiState) :
    (lockNowUi u).1.store.masterPassword = none
    ∧ (lockNowUi u).1.store.openProject = none
    ∧ (lockNowUi u).1.buffer = none
    ∧ (lockNowUi u).1.store.selectedProjectId = none
    ∧ (lockNowUi u).1.store.projects = []
    ∧ (lockNowUi u).2 = [Effect.clearCachedKey]
    ∧ (lockNowUi u).1.store.view
        = (if u.store.hasPinCode then AppView.pinUnlock else AppView.unlock) := by
  cases h : u.store.hasPinCode <;>
    simp [lockNowUi, AppStore.lock, mountedBuffer, h]

/-- The lock/unlock transitions of the session state machine, one
constructor per transition site in the source: the bootstrap resolver
(App.tsx), InitScreen handleCreate/handleOpen, MasterPasswordSetup
handleSubmit, PinSetup handleSubmit and skip, UnlockScreen handleSubmit
(which lands in pin-setup when no PIN exists), PinUnlock success and
fallback, and the store's lock action. -/
inductive Step : AppStore → AppStore → Prop where
  | bootstrapStep (env : TauriEnv) {s : AppStore} (h : s.view = AppView.loading) :
      Step s (bootstrap env s).1
  | initCreateStep {s : AppStore} (path : String) (h : s.view = AppView.init) :
      Step s { s with dbPath := some path, view := AppView.masterPasswordSetup }
  | initOpenStep {s : AppStore} (path : String) (hasMaster : Bool)
      (h : s.view = AppView.init) :
      Step s { s with
                 dbPath := some path
                 view := if hasMaster then AppView.unlock
                         else AppView.masterPasswordSetup }
  | masterSetupStep {s : AppStore} (pw : String)
      (h : s.view = AppView.masterPasswordSetup) :
      Step s { s with masterPassword := some pw, view := AppView.pinSetup }
  | pinSetupDoneStep {s : AppStore} (mp : String) (h : s.view = AppView.pinSetup)
      (hmp : s.masterPassword = some mp) :
      Step s { s with
                 hasSavedSession := true
                 hasPinCode := true
                 view := AppView.main }
  | pinSetupSkipStep {s : AppStore} (h : s.view = AppView.pinSetup) :
      Step s { s with view := AppView.main }
  | masterUnlockStep {s : AppStore} (pw : String) (pinExists : Bool) (now : Nat)
      (h : s.view = AppView.unlock) :
      Step s { s with
                 masterPassword := some pw
                 lastActivity := now
                 view := if pinExists then AppView.main else AppView.pinSetup }
  | pinUnlockOkStep {s : AppStore} (mp : String) (now : Nat)
      (h : s.view = AppView.pinUnlock) :
      Step s { s with
                 masterPassword := some mp
                 lastActivity := now
                 view := AppView.main }
  | pinFallbackStep {s : AppStore} (h : s.view = AppView.pinUnlock) :
      Step s { s with view := AppView.unlock }
  | lockStep (s : AppStore) : Step s s.lock

/-- A store reachable from the initial store by lock/unlock transitions. -/
def Reachable (s : AppStore) : Prop :=
  Relation.ReflTransGen Step initialStore s

/-- The relationship between the in-memory master password and the view
that the transition system actually maintains. -/
def secretsViewInv (s : AppStore) : Prop :=
  s.masterPassword.isSome = true
    ↔ (s.view = AppView.main ∨ s.view = AppView.pinSetup)

lemma bootstrap_secretsViewInv (env : TauriEnv) (s : AppStore)
    (h : s.masterPassword = none) : secretsViewInv (bootstrap env s).1 := by
  obtain ⟨hss, hdb, hio, hpin, hmp, hnow⟩ := env
  cases hss <;> cases hdb <;> cases hio <;> cases hpin <;> cases hmp <;>
    simp [bootstrap, secretsViewInv, h]

lemma secretsViewInv_mp_none {s : AppStore} (hs : secretsViewInv s)
    (h1 : s.view ≠ AppView.main) (h2 : s.view ≠ AppView.pinSetup) :
    s.masterPassword = none := by
  rcases hmp : s.masterPassword with _ | v
  · rfl
  · exfalso
    rcases hs.mp (by simp [hmp]) with hv | hv
    · exact h1 hv
    · exact h2 hv

lemma step_preserves_secretsViewInv {s s' : AppStore} (hst : Step s s')
    (hs : secretsViewInv s) : secretsViewInv s' := by
  cases hst with
  | bootstrapStep env h =>
      exact bootstrap_secretsViewInv env _
        (secretsViewInv_mp_none hs (by simp [h]) (by simp [h]))
  | initCreateStep path h =>
      have hmp := secretsViewInv_mp_none hs (by simp [h]) (by simp [h])
      simp [secretsViewInv, hmp]
  | initOpenStep path hasMaster h =>
      have hmp := secretsViewInv_mp_none hs (by simp [h]) (by simp [h])
      cases hasMaster <;> simp [secretsViewInv, hmp]
  | masterSetupStep pw h =>
      simp [secretsViewInv]
  | pinSetupDoneStep mp h hmp =>
      simp [secretsViewInv, hmp]
  | pinSetupSkipStep h =>
      have := hs.mpr (Or.inr h)
      simp [secretsViewInv, this]
  | masterUnlockStep pw pinExists now h =>
      cases pinExists <;> simp [secretsViewInv]
  | pinUnlockOkStep mp now h =>
      simp [secretsViewInv]
  | pinFallbackStep h =>
      have hmp := secretsViewInv_mp_none hs (by simp [h]) (by simp [h])
      simp [secretsViewInv, hmp]
  | lockStep s =>
      cases h : s.hasPinCode <;> simp [secretsViewInv, AppStore.lock, h]

/-- Environment of the counterexample run: a saved session with a stored
location, no PIN and no externally saved master password, so the bootstrap
lands in the unlock view. -/
def cexEnv : TauriEnv := ⟨true, some "loc", true, false, none, 0⟩

/-- The store after the counterexample bootstrap: unlock view. -/
def cexUnlockStore : AppStore := (bootstrap cexEnv initialStore).1

/-- The store after a successful master unlock with no PIN configured:
the view is pin-setup while the master password is non-null. -/
def cexPinSetupStore : AppStore :=
  { cexUnlockStore with
      masterPassword := some "pw"
      lastActivity := 1
      view := AppView.pinSetup }

/-- C1 counterexample: a reachable store (bootstrap to the unlock view,
then a successful master unlock with no PIN configured) holds a non-null
master password while its view is pin-setup, not main — refuting that the
in-memory secret is non-null only when the session is unlocked. -/
theorem C1_counterexample :
    Reachable cexPinSetupStore
    ∧ cexPinSetupStore.masterPassword.isSome = true
    ∧ cexPinSetupStore.view ≠ AppView.main := by
  refine ⟨?_, rfl, by decide⟩
  have step1 : Step initialStore cexUnlockStore :=
    Step.bootstrapStep cexEnv rfl
  have step2 : Step cexUnlockStore cexPinSetupStore :=
    Step.masterUnlockStep "pw" false 1 rfl
  exact Relation.ReflTransGen.tail (Relation.ReflTransGen.single step1) step2

/-- C1 amended: along every sequence of lock/unlock transitions, the
in-memory master password is non-null iff the view is main (Unlocked) or
pin-setup (AwaitingPinSetup): unlock transitions that land in pin-setup
set the secret before the unlocked state is reached, and every lock
transition nulls it. -/
theorem C1_amended_secrets_iff (s : AppStore) (h : Reachable s) :
    s.masterPassword.isSome = true
      ↔ (s.view = AppView.main ∨ s.view = AppView.pinSetup) := by
  induction h with
  | refl => simp [initialStore]
  | tail _ hstep ih => exact step_preserves_secretsViewInv hstep ih

/-- C1 amended witness: the invariant applied to the initial store. -/
theorem C1_amended_secrets_iff_witness :
    initialStore.masterPassword.isSome = true
      ↔ (initialStore.view = AppView.main
          ∨ initialStore.view = AppView.pinSetup) :=
  C1_amended_secrets_iff initialStore Relation.ReflTransGen.refl

/-- Event-loop run of a chronological list of timed content mutations:
before handling a mutation, the pending debounce timer fires (and commits
successfully) if its instant has already passed; then the mutation is
applied.  Commits issued along the run are collected. -/
def runMutations : AutosaveState → List (Nat × String) → AutosaveState × List String
  | a, [] => (a, [])
  | a, (t, v) :: rest =>
      let fired :=
        match a.deadline with
        | some d => if d ≤ t then fireDebounce a (Except.ok ()) else (a, [])
        | none => (a, [])
      let next := runMutations (mutateContent fired.1 v t) rest
      (next.1, fired.2 ++ next.2)

/-- Letting time run out after the last event: the pending debounce timer,
if any, fires (and commits successfully). -/
def finishRun (a : AutosaveState) : AutosaveState × List String :=
  match a.deadline with
  | some _ => fireDebounce a (Except.ok ())
  | none => (a, [])

/-- Chronological mutation list whose every mutation arrives strictly
before the fixed instant `d` (the deadline of the timer pending since the
buffer became dirty; mutations do not move it). -/
def allBeforeInstant (d : Nat) (muts : List (Nat × String)) : Bool :=
  muts.all (fun m => decide (m.1 < d))

lemma runMutations_cons_noFire (a : AutosaveState) (t : Nat) (v : String)
    (rest : List (Nat × String)) (d : Nat) (hdl : a.deadline = some d)
    (ht : t < d) :
    runMutations a ((t, v) :: rest) = runMutations (mutateContent a v t) rest := by
  rw [runMutations, hdl]
  simp [Nat.not_le.mpr ht]

lemma runMutations_fixed_deadline (muts : List (Nat × String)) :
    ∀ (a : AutosaveState) (d tl : Nat) (vl : String),
    a.dirty = true → a.deadline = some d → allBeforeInstant d muts = true →
    muts.getLast? = some (tl, vl) →
    runMutations a muts = ({ a with content := vl }, []) := by
  induction muts with
  | nil =>
      intro a d tl vl _ _ _ hlast
      simp at hlast
  | cons hd rest ih =>
      intro a d tl vl hdirty hdl hbd hlast
      obtain ⟨t, v⟩ := hd
      rw [allBeforeInstant, List.all_cons, Bool.and_eq_true, decide_eq_true_eq]
        at hbd
      obtain ⟨htd, hbd'⟩ := hbd
      rw [runMutations_cons_noFire a t v rest d hdl htd]
      have hmut : mutateContent a v t = { a with content := v } := by
        simp [mutateContent, hdirty]
      cases rest with
      | nil =>
          simp only [List.getLast?_singleton, Option.some.injEq, Prod.mk.injEq] at hlast
          obtain ⟨h1, h2⟩ := hlast
          subst h1; subst h2
          rw [hmut]
          simp [runMutations]
      | cons hd' rest' =>
          have hlast' : (hd' :: rest').getLast? = some (tl, vl) := by
            rwa [List.getLast?_cons_cons] at hlast
          rw [hmut, ih { a with content := v } d tl vl hdirty hdl
                (by rwa [allBeforeInstant]) hlast']

/-- A concrete dirty buffer with a pending debounce timer at instant
1500 (the buffer became dirty at instant 0). -/
def dirtyPendingBuffer : AutosaveState :=
  ⟨"x", "x", true, some 1500, SaveStatus.idle, none⟩

/-- C4 counterexample: a mutation from a dirty buffer with a pending
timer at instant 1500 leaves the deadline at 1500 — it is not restarted
to the mutation instant plus DEBOUNCE_MS — and a chain of mutations at
instants 100 and 1599, each within DEBOUNCE_MS of the previous one (so
each arriving "before the debounce elapses" in the restarting reading),
produces two commit calls, not one: the fixed timer fires between them. -/
theorem C4_counterexample_no_restart :
    dirtyPendingBuffer.dirty = true
    ∧ (mutateContent dirtyPendingBuffer "a" 100).deadline = some 1500
    ∧ (mutateContent dirtyPendingBuffer "a" 100).deadline
        ≠ some (100 + DEBOUNCE_MS)
    ∧ ((runMutations dirtyPendingBuffer [(100, "a"), (1599, "b")]).2
        ++ (finishRun (runMutations dirtyPendingBuffer
              [(100, "a"), (1599, "b")]).1).2) = ["a", "b"] :=
  ⟨rfl, rfl, by decide, by decide⟩

/-- C4 amended: a mutation while the buffer is already dirty records the
new content but does not restart the pending debounce timer (the timer
effect re-runs only when the dirty flag changes); from a dirty buffer with
a pending deadline, any nonempty chronological run of further mutations
all arriving strictly before that fixed deadline produces, once time runs
out, exactly one commit call, carrying the latest buffered content. -/
theorem C4_amended_fixed_deadline_commit (a : AutosaveState)
    (muts : List (Nat × String)) (d tl : Nat) (vl : String)
    (hdirty : a.dirty = true) (hdl : a.deadline = some d)
    (hbd : allBeforeInstant d muts = true)
    (hlast : muts.getLast? = some (tl, vl)) :
    (runMutations a muts).2 ++ (finishRun (runMutations a muts).1).2 = [vl]
    ∧ (∀ (b : AutosaveState) (v : String) (t : Nat), b.dirty = true →
        (mutateContent b v t).deadline = b.deadline
        ∧ (mutateContent b v t).dirty = true
        ∧ (mutateContent b v t).content = v) := by
  refine ⟨?_, fun b v t hb => by simp [mutateContent, hb]⟩
  rw [runMutations_fixed_deadline muts a d tl vl hdirty hdl hbd hlast]
  simp [finishRun, fireDebounce, handleSave, hdl, hdirty]

/-- C4 amended witness: two rapid mutations before the fixed deadline,
then quiescence, commit once with the latest content. -/
theorem C4_amended_fixed_deadline_commit_witness :
    allBeforeInstant 1500 [(100, "hello"), (200, "world")] = true
    ∧ ((runMutations dirtyPendingBuffer [(100, "hello"), (200, "world")]).2
        ++ (finishRun (runMutations dirtyPendingBuffer
              [(100, "hello"), (200, "world")]).1).2) = ["world"] :=
  ⟨by decide,
   (C4_amended_fixed_deadline_commit dirtyPendingBuffer
      [(100, "hello"), (200, "world")] 1500 200 "world"
      rfl rfl (by decide) rfl).1⟩

/-- C5: a failed commit leaves the dirty flag set and the buffered content
unchanged, surfaces the error with status error, leaves no pending timer
(so no automatic retry happens once time runs out), and a subsequent
manual flush issues a commit call carrying the same content. -/
theorem C5_failed_commit_retains_edit (a : AutosaveState) (e : String)
    (hdirty : a.dirty = true) :
    (fireDebounce a (Except.error e)).1.dirty = true
    ∧ (fireDebounce a (Except.error e)).1.content = a.content
    ∧ (fireDebounce a (Except.error e)).1.saveStatus = SaveStatus.error
    ∧ (fireDebounce a (Except.error e)).1.errorMsg = some e
    ∧ (fireDebounce a (Except.error e)).2 = [a.content]
    ∧ finishRun (fireDebounce a (Except.error e)).1
        = ((fireDebounce a (Except.error e)).1, [])
    ∧ (manualFlush (fireDebounce a (Except.error e)).1 (Except.ok ())).2
        = [a.content] := by
  simp [fireDebounce, handleSave, manualFlush, finishRun, hdirty]

/-- C5 witness: a concrete dirty buffer whose commit fails keeps its
content and retries it on manual flush. -/
theorem C5_failed_commit_retains_edit_witness :
    (fireDebounce ⟨"draft", "old", true, some 1500, SaveStatus.idle, none⟩
        (Except.error "io")).1.dirty = true
    ∧ (fireDebounce ⟨"draft", "old", true, some 1500, SaveStatus.idle, none⟩
        (Except.error "io")).1.content = "draft"
    ∧ (fireDebounce ⟨"draft", "old", true, some 1500, SaveStatus.idle, none⟩
        (Except.error "io")).1.saveStatus = SaveStatus.error
    ∧ (fireDebounce ⟨"draft", "old", true, some 1500, SaveStatus.idle, none⟩
        (Except.error "io")).1.errorMsg = some "io"
    ∧ (fireDebounce ⟨"draft", "old", true, some 1500, SaveStatus.idle, none⟩
        (Except.error "io")).2 = ["draft"]
    ∧ finishRun (fireDebounce ⟨"draft", "old", true, some 1500, SaveStatus.idle, none⟩
        (Except.error "io")).1
        = ((fireDebounce ⟨"draft", "old", true, some 1500, SaveStatus.idle, none⟩
            (Except.error "io")).1, [])
    ∧ (manualFlush (fireDebounce ⟨"draft", "old", true, some 1500, SaveStatus.idle, none⟩
        (Except.error "io")).1 (Except.ok ())).2 = ["draft"] :=
  C5_failed_commit_retains_edit
    ⟨"draft", "old", true, some 1500, SaveStatus.idle, none⟩ "io" rfl

/-- Switching the open item (the ContentView effect keyed on
openProject.id): the buffer is reset to the newly opened project's
content, the dirty flag and status are cleared, and — because the dirty
flag drops — the debounce effect's cleanup cancels any pending timer.  No
commit call is issued. -/
def switchOpenItem (_a : AutosaveState) (p : DecryptedProject) :
    AutosaveState × List String :=
  ({ content := p.content
     savedContent := p.content
     dirty := false
     deadline := none
     saveStatus := SaveStatus.idle
     errorMsg := none }, [])

/-- ContentView unmount cleanup (the effect returning at lines 109-114):
it only clears the debounce and saved-display timers; it issues no commit
call. -/
def unmountCleanup (a : AutosaveState) : AutosaveState × List String :=
  ({ a with deadline := none }, [])

/-- A concrete dirty buffer with a pending edit. -/
def dirtyBuffer : AutosaveState :=
  ⟨"pending edit", "old content", true, some 1500, SaveStatus.idle, none⟩

/-- A concrete other project being opened. -/
def otherProject : DecryptedProject :=
  ⟨"p2", "Other", "other content", false, 1, "t0", "t1"⟩

/-- C6 counterexample: switching away from a dirty buffer issues no commit
call at all and resets the buffer to the new item's content, and the
unmount cleanup (the lock teardown path) issues no commit call either —
the pending edit is silently dropped, refuting that a final flush is
attempted. -/
theorem C6_counterexample :
    dirtyBuffer.dirty = true
    ∧ (switchOpenItem dirtyBuffer otherProject).2 = []
    ∧ (switchOpenItem dirtyBuffer otherProject).1.content = "other content"
    ∧ (switchOpenItem dirtyBuffer otherProject).1.dirty = false
    ∧ (unmountCleanup dirtyBuffer).2 = [] :=
  ⟨rfl, rfl, rfl, rfl, rfl⟩

/-- C6 amended: switching the open item (or locking, which unmounts the
editor) while the buffer is dirty does NOT attempt a final flush: no
commit call is made, the pending timer is cancelled, and the buffered edit
is discarded — the buffer is reset to the newly opened item's content on a
switch, and the unmount cleanup only clears timers. -/
theorem C6_amended_no_flush (a : AutosaveState) (p : DecryptedProject) :
    (switchOpenItem a p).2 = []
    ∧ (switchOpenItem a p).1.content = p.content
    ∧ (switchOpenItem a p).1.dirty = false
    ∧ (switchOpenItem a p).1.deadline = none
    ∧ (unmountCleanup a).2 = []
    ∧ (unmountCleanup a).1.deadline = none :=
  ⟨rfl, rfl, rfl, rfl, rfl, rfl⟩

/-- PinUnlock component state (PinUnlock.tsx): the attempt counter ref
and the typed pin.  The ref lives only while the component is mounted. -/
structure PinUnlockState where
  attempts : Nat
  pin : String
deriving DecidableEq, Repr

/-- PIN attempt ceiling (PinUnlock.tsx MAX_ATTEMPTS). -/
def MAX_ATTEMPTS : Nat := 5

/-- Mounting the PinUnlock component: `useRef(0)` and an empty pin, so
every (re)entry into the pin-unlock view starts the counter at 0. -/
def mountPinUnlock : PinUnlockState := ⟨0, ""⟩

/-- handleComplete of PinUnlock.tsx, with the verifyPin outcome supplied
by the environment: on success the master password is recorded, activity
is marked and the main view entered; on failure the attempt counter
increments, the typed pin clears, and on reaching MAX_ATTEMPTS the view
falls back to the full master-password unlock screen. -/
def handleComplete (ps : PinUnlockState) (s : AppStore)
    (verifyResult : Except String String) (now : Nat) :
    PinUnlockState × AppStore :=
  match verifyResult with
  | Except.ok mp =>
      (ps, { s with
               masterPassword := some mp
               lastActivity := now
               view := AppView.main })
  | Except.error _ =>
      let next := ps.attempts + 1
      let ps' := { ps with attempts := next, pin := "" }
      if MAX_ATTEMPTS ≤ next then (ps', { s with view := AppView.unlock })
      else (ps', s)

/-- C7: during PIN quick-unlock each failed verification increments the
attempt counter by one; when the incremented counter reaches the ceiling
of 5 the view transitions to the full master-password unlock screen,
below the ceiling the view stays pin-unlock, and the counter observed on
any subsequent entry of the pin-unlock view is 0 (the component ref is
recreated at 0 on mount). -/
theorem C7_pin_attempt_ceiling (ps : PinUnlockState) (s : AppStore)
    (e : String) (now : Nat) (hview : s.view = AppView.pinUnlock) :
    MAX_ATTEMPTS = 5
    ∧ (handleComplete ps s (Except.error e) now).1.attempts = ps.attempts + 1
    ∧ (MAX_ATTEMPTS ≤ ps.attempts + 1 →
        (handleComplete ps s (Except.error e) now).2.view = AppView.unlock)
    ∧ (ps.attempts + 1 < MAX_ATTEMPTS →
        (handleComplete ps s (Except.error e) now).2.view = AppView.pinUnlock)
    ∧ mountPinUnlock.attempts = 0 := by
  refine ⟨rfl, ?_, ?_, ?_, rfl⟩
  · by_cases h : MAX_ATTEMPTS ≤ ps.attempts + 1 <;> simp [handleComplete, h]
  · intro h
    simp [handleComplete, h]
  · intro h
    simp [handleComplete, Nat.not_le.mpr h, hview]

/-- C7 witness: the fifth consecutive failure falls back to the unlock
view, and a fresh mount of the pin-unlock component starts at 0. -/
theorem C7_pin_attempt_ceiling_witness :
    (handleComplete ⟨4, ""⟩ { initialStore with view := AppView.pinUnlock }
        (Except.error "bad") 0).1.attempts = 4 + 1
    ∧ (handleComplete ⟨4, ""⟩ { initialStore with view := AppView.pinUnlock }
        (Except.error "bad") 0).2.view = AppView.unlock
    ∧ mountPinUnlock.attempts = 0 :=
  ⟨(C7_pin_attempt_ceiling ⟨4, ""⟩ { initialStore with view := AppView.pinUnlock }
      "bad" 0 rfl).2.1,
   (C7_pin_attempt_ceiling ⟨4, ""⟩ { initialStore with view := AppView.pinUnlock }
      "bad" 0 rfl).2.2.1 (by decide),
   rfl⟩

/-- handleReorderProjects of MainLayout.tsx composed with loadProjects:
the new order is applied optimistically, its persistence is requested; on
failure loadProjects refetches the authoritative list (when the master
password is truthy) and applies it.  Returns the optimistic state, the
final state and the issued effects. -/
def handleReorderProjects (s : AppStore) (reordered : List ProjectListItem)
    (persistOk : Bool) (listResult : Except String (List ProjectListItem)) :
    AppStore × AppStore × List Effect :=
  let s1 := { s with projects := reordered }
  let eff := Effect.reorderProjects (reordered.map (fun p => p.id))
  if persistOk then (s1, s1, [eff])
  else
    if optTruthy s1.masterPassword = false then
      (s1, s1, [eff])
    else
      match listResult with
      | Except.ok ps => (s1, { s1 with projects := ps }, [eff, Effect.listProjects])
      | Except.error _ => (s1, s1, [eff, Effect.listProjects])

/-- C8: the reorder operation applies the requested order immediately
(optimistic update) in both outcomes, requests persistence of that order,
keeps it when persistence succeeds, and on failure reloads the
authoritative order from storage, so the final list equals the stored
order. -/
theorem C8_reorder_optimistic_rollback (s : AppStore)
    (reordered stored : List ProjectListItem)
    (hmp : optTruthy s.masterPassword = true) :
    (handleReorderProjects s reordered true (Except.ok stored)).1.projects = reordered
    ∧ (handleReorderProjects s reordered false (Except.ok stored)).1.projects = reordered
    ∧ Effect.reorderProjects (reordered.map (fun p => p.id))
        ∈ (handleReorderProjects s reordered true (Except.ok stored)).2.2
    ∧ Effect.reorderProjects (reordered.map (fun p => p.id))
        ∈ (handleReorderProjects s reordered false (Except.ok stored)).2.2
    ∧ (handleReorderProjects s reordered false (Except.ok stored)).2.1.projects = stored
    ∧ (handleReorderProjects s reordered true (Except.ok stored)).2.1.projects = reordered := by
  simp [handleReorderProjects, hmp]

/-- A concrete unlocked store for witnesses. -/
def unlockedStore : AppStore :=
  { initialStore with masterPassword := some "mp", view := AppView.main }

/-- Concrete project summaries A, B, C for the reorder witness. -/
def itemA : ProjectListItem := ⟨"A", "A", false, false, 0, "t", "t"⟩

def itemB : ProjectListItem := ⟨"B", "B", false, false, 1, "t", "t"⟩

def itemC : ProjectListItem := ⟨"C", "C", false, false, 2, "t", "t"⟩

/-- C8 witness: reordering [A,B,C] to [C,A,B] whose persistence fails is
first applied optimistically and then rolled back to the stored order. -/
theorem C8_reorder_optimistic_rollback_witness :
    optTruthy unlockedStore.masterPassword = true
    ∧ (handleReorderProjects unlockedStore [itemC, itemA, itemB] false
        (Except.ok [itemA, itemB, itemC])).1.projects = [itemC, itemA, itemB]
    ∧ (handleReorderProjects unlockedStore [itemC, itemA, itemB] false
        (Except.ok [itemA, itemB, itemC])).2.1.projects = [itemA, itemB, itemC] :=
  ⟨rfl,
   (C8_reorder_optimistic_rollback unlockedStore [itemC, itemA, itemB]
      [itemA, itemB, itemC] rfl).2.1,
   (C8_reorder_optimistic_rollback unlockedStore [itemC, itemA, itemB]
      [itemA, itemB, itemC] rfl).2.2.2.2.1⟩

/-- handleSubmit of NewProjectDialog.tsx: name-presence check, custom
secret length and confirmation checks, the JS-truthiness password guard,
then the createProject / listProjects / getProject calls with their
results supplied by the environment.  Returns the resulting store, the
issued effects and the displayed error, if any. -/
def newProjectSubmit (name : String) (useCustomPassword : Bool)
    (customPassword customPasswordConfirm : String) (s : AppStore)
    (createResult : Except String String)
    (listResult : List ProjectListItem) (getResult : DecryptedProject) :
    AppStore × List Effect × Option String :=
  if (name.trim).isEmpty then
    (s, [], some "newProject.validation.nameRequired")
  else if useCustomPassword && decide (customPassword.length < 8) then
    (s, [], some "newProject.validation.customMinLength")
  else if useCustomPassword && customPassword != customPasswordConfirm then
    (s, [], some "newProject.validation.mismatch")
  else
    match (if useCustomPassword then some customPassword else s.masterPassword) with
    | none => (s, [], some "newProject.validation.noPassword")
    | some p =>
        if p.isEmpty then (s, [], some "newProject.validation.noPassword")
        else
          match createResult with
          | Except.error e =>
              (s, [Effect.createProject name.trim "" p useCustomPassword], some e)
          | Except.ok createdId =>
              let s1 := if optTruthy s.masterPassword then
                          { s with projects := listResult }
                        else s
              let s2 := { s1 with
                            selectedProjectId := some createdId
                            openProject := some getResult }
              (s2,
               Effect.createProject name.trim "" p useCustomPassword
                 :: ((if optTruthy s.masterPassword then [Effect.listProjects] else [])
                     ++ [Effect.getProject createdId p]),
               none)

/-- C9: a create request with the custom-secret option on and a custom
secret shorter than 8 characters is rejected with a validation error
before any external call is issued, and the store (item list, open item)
is unchanged. -/
theorem C9_short_custom_secret_rejected (name : String) (cpw cpwc : String)
    (s : AppStore) (cr : Except String String)
    (lr : List ProjectListItem) (gr : DecryptedProject)
    (hlen : cpw.length < 8) :
    (newProjectSubmit name true cpw cpwc s cr lr gr).1 = s
    ∧ (newProjectSubmit name true cpw cpwc s cr lr gr).2.1 = []
    ∧ ((newProjectSubmit name true cpw cpwc s cr lr gr).2.2
          = some "newProject.validation.nameRequired"
        ∨ (newProjectSubmit name true cpw cpwc s cr lr gr).2.2
          = some "newProject.validation.customMinLength") := by
  by_cases hname : (name.trim).isEmpty = true
  · simp [newProjectSubmit, hname]
  · simp [newProjectSubmit, hname, hlen]

/-- A concrete project value for the create witness. -/
def dummyProject : DecryptedProject := ⟨"p9", "notes", "", true, 0, "t", "t"⟩

/-- C9 witness: a five-character custom secret is rejected with no call. -/
theorem C9_short_custom_secret_rejected_witness :
    ("short".length < 8)
    ∧ (newProjectSubmit "notes" true "short" "short" initialStore
        (Except.ok "p9") [] dummyProject).2.1 = []
    ∧ ((newProjectSubmit "notes" true "short" "short" initialStore
          (Except.ok "p9") [] dummyProject).2.2
          = some "newProject.validation.nameRequired"
        ∨ (newProjectSubmit "notes" true "short" "short" initialStore
            (Except.ok "p9") [] dummyProject).2.2
          = some "newProject.validation.customMinLength") :=
  ⟨by decide,
   (C9_short_custom_secret_rejected "notes" "short" "short" initialStore
      (Except.ok "p9") [] dummyProject (by decide)).2.1,
   (C9_short_custom_secret_rejected "notes" "short" "short" initialStore
      (Except.ok "p9") [] dummyProject (by decide)).2.2⟩

/-- The regex test of PinSetup.tsx (`^\d{4}$`): exactly four decimal
digits. -/
def isFourDigitPin (pin : String) : Bool :=
  pin.length == 4 && pin.toList.all (fun c => c.isDigit)

/-- validate of PinSetup.tsx: the length-and-regex check, then the
confirmation equality check. -/
def pinValidate (pin confirm : String) : Option String :=
  if !(pin.length == 4) || !(isFourDigitPin pin) then
    some "pin.validation.minLength"
  else if pin != confirm then some "pin.validation.mismatch"
  else none

/-- handleSubmit of PinSetup.tsx: validation, the JS-truthiness master
password guard (`if (!masterPassword) return`), then the setupPin command
with its outcome supplied by the environment. -/
def pinSetupSubmit (pin confirm : String) (s : AppStore)
    (setupResult : Except String Unit) : AppStore × List Effect × Option String :=
  match pinValidate pin confirm with
  | some err => (s, [], some err)
  | none =>
      match s.masterPassword with
      | none => (s, [], none)
      | some mp =>
          if mp.isEmpty then (s, [], none)
          else
            match setupResult with
            | Except.ok _ =>
                ({ s with
                     hasSavedSession := true
                     hasPinCode := true
                     view := AppView.main },
                 [Effect.setupPin pin mp], none)
            | Except.error e => (s, [Effect.setupPin pin mp], some e)

/-- C10: the setupPin command is invoked only when the entered PIN is
exactly four decimal digits, equals the confirmation and the in-memory
master password is non-null; for input failing the digits, confirmation or
non-null conditions the store is unchanged and no external call is made;
and whenever validation fails the validation error is reported. -/
theorem C10_pin_setup_guard (pin confirm : String) (s : AppStore)
    (res : Except String Unit) :
    (∀ p m : String, Effect.setupPin p m ∈ (pinSetupSubmit pin confirm s res).2.1 →
        isFourDigitPin pin = true ∧ pin = confirm ∧ s.masterPassword ≠ none)
    ∧ ((isFourDigitPin pin = false ∨ pin ≠ confirm ∨ s.masterPassword = none) →
        (pinSetupSubmit pin confirm s res).1 = s
        ∧ (pinSetupSubmit pin confirm s res).2.1 = [])
    ∧ (pinValidate pin confirm ≠ none →
        (pinSetupSubmit pin confirm s res).2.2 = pinValidate pin confirm) := by
  by_cases h4 : isFourDigitPin pin = true
  · have hl : (pin.length == 4) = true := by
      have := h4
      rw [isFourDigitPin, Bool.and_eq_true] at this
      exact this.1
    by_cases hc : pin = confirm
    · subst hc
      have hval : pinValidate pin pin = none := by
        simp [pinValidate, hl, h4]
      rcases hmp : s.masterPassword with _ | mp
      · refine ⟨?_, ?_, ?_⟩
        · intro p m hmem
          simp [pinSetupSubmit, hval, hmp] at hmem
        · intro _
          simp [pinSetupSubmit, hval, hmp]
        · intro hne
          exact absurd hval hne
      · by_cases hemp : mp.isEmpty = true
        · refine ⟨?_, ?_, ?_⟩
          · intro p m hmem
            simp [pinSetupSubmit, hval, hmp, hemp] at hmem
          · rintro (h | h | h)
            · exact absurd h4 (by simp [h])
            · exact absurd rfl h
            · simp [hmp] at h
          · intro hne
            exact absurd hval hne
        · refine ⟨?_, ?_, ?_⟩
          · intro p m _
            exact ⟨h4, rfl, by simp [hmp]⟩
          · rintro (h | h | h)
            · exact absurd h4 (by simp [h])
            · exact absurd rfl h
            · simp [hmp] at h
          · intro hne
            exact absurd hval hne
    · have hval : pinValidate pin confirm = some "pin.validation.mismatch" := by
        simp [pinValidate, hl, h4, hc]
      refine ⟨?_, ?_, ?_⟩
      · intro p m hmem
        simp [pinSetupSubmit, hval] at hmem
      · intro _
        simp [pinSetupSubmit, hval]
      · intro _
        simp [pinSetupSubmit, hval]
  · have hval : pinValidate pin confirm = some "pin.validation.minLength" := by
      have h4f : isFourDigitPin pin = false := by
        cases hb : isFourDigitPin pin
        · rfl
        · exact absurd hb h4
      simp [pinValidate, h4f]
    refine ⟨?_, ?_, ?_⟩
    · intro p m hmem
      simp [pinSetupSubmit, hval] at hmem
    · intro _
      simp [pinSetupSubmit, hval]
    · intro _
      simp [pinSetupSubmit, hval]

/-- C10 witness: a mismatched confirmation leaves the store unchanged and
issues no call. -/
theorem C10_pin_setup_guard_witness :
    (pinSetupSubmit "1234" "1235" unlockedStore (Except.ok ())).1 = unlockedStore
    ∧ (pinSetupSubmit "1234" "1235" unlockedStore (Except.ok ())).2.1 = [] :=
  (C10_pin_setup_guard "1234" "1235" unlockedStore (Except.ok ())).2.1
    (Or.inr (Or.inl (by decide)))

end VaultPad
